import Mathlib

/-!
Verification of the `Poll` class of maci-core (`src/core/ts/Poll.ts`) against its
natural-language specification.  The TypeScript class is shallowly embedded:
JavaScript `bigint` values become `Int`, JS arrays become `List`s, and the
incremental quinary Merkle trees (library `maci-crypto`, not part of this
repository) are represented by their lists of leaf values, with the Poseidon
hash functions passed in as abstract parameters.  Cryptographic collaborators
from `maci-domainobjs` (EdDSA signature verification, message decryption) are
likewise abstracted: the outcome of `PCommand.decrypt` is an `Option PCommand`
argument and `Command.verifySignature` is a boolean-valued function argument.
-/

namespace MaciCore

/-- Public key on Baby Jubjub: a pair of field elements (maci-domainobjs). -/
abbrev PubKey := Int × Int

/-- Keypair of the coordinator (maci-domainobjs).  Modelled from the spec:
`Keypair` holds a private key and the corresponding public key; its `equals`
compares both components. -/
structure Keypair where
  privKey : Int
  pubKey : PubKey
  deriving DecidableEq, Repr

/-- State leaf: voter record, see the spec data model and maci-domainobjs. -/
structure StateLeaf where
  pubKey : PubKey
  voiceCreditBalance : Int
  timestamp : Int
  deriving DecidableEq, Repr

/-- Ballot: per-voter nonce plus one weight per vote option (maci-domainobjs). -/
structure Ballot where
  nonce : Int
  votes : List Int
  deriving DecidableEq, Repr

/-- Message: type tag plus ten data words (maci-domainobjs). -/
structure Message where
  msgType : Int
  data : List Int
  deriving DecidableEq, Repr

/-- Decrypted vote / key-change command (maci-domainobjs PCommand). -/
structure PCommand where
  stateIndex : Int
  newPubKey : PubKey
  voteOptionIndex : Int
  newVoteWeight : Int
  nonce : Int
  pollId : Int
  salt : Int
  deriving DecidableEq, Repr

/-- Stored command: either a vote command or a topup command (ICommand). -/
inductive Cmd where
  | pcmd (c : PCommand)
  | tcmd (stateIndex amount pollId : Int)
  deriving DecidableEq, Repr

/-- Tree depths parameter block of the Poll constructor. -/
structure TreeDepths where
  intStateTreeDepth : Nat
  messageTreeDepth : Nat
  messageTreeSubDepth : Nat
  voteOptionTreeDepth : Nat
  deriving DecidableEq, Repr

/-- Batch sizes parameter block of the Poll constructor. -/
structure BatchSizes where
  tallyBatchSize : Nat
  subsidyBatchSize : Nat
  messageBatchSize : Nat
  deriving DecidableEq, Repr

/-- Maximum values parameter block of the Poll constructor. -/
structure MaxValues where
  maxMessages : Nat
  maxVoteOptions : Nat
  deriving DecidableEq, Repr

/-- Error kinds thrown by processMessage (utils/errors.ts). -/
inductive ProcessMessageErrors where
  | invalidStateLeafIndex
  | invalidSignature
  | invalidNonce
  | invalidVoteOptionIndex
  | insufficientVoiceCredits
  | failedDecryption
  deriving DecidableEq, Repr

/-- The BN254 scalar field modulus SNARK_FIELD_SIZE (maci-crypto). -/
def SNARK_FIELD_SIZE : Int :=
  21888242871839275222246405745257275088548364400416034343698204186575808495617

/-- Fixed pad public key used by topupMessage (the two literals in Poll.ts). -/
def padKey : PubKey :=
  (10457101036533406547632367118273992217979173478358440826365724437999023779287,
   19824078218392094440610104313265183977899662750282163392862422243483260492317)

/-- Blank state leaf sentinel at index 0.  Modelled from the spec: the value of
`blankStateLeaf` lives in maci-domainobjs (not under src/); only its existence
matters here, it is used as the out-of-range default for state-leaf lookups. -/
def blankStateLeaf : StateLeaf :=
  { pubKey := padKey, voiceCreditBalance := 0, timestamp := 0 }

/-- Default ballot used for out-of-range ballot lookups. -/
def defaultBallot : Ballot := { nonce := 0, votes := [] }

/-- Blank ballot produced by Ballot.genBlankBallot.  Modelled from the spec:
maci-domainobjs creates a zero nonce and one zero weight per vote option. -/
def genBlankBallot (maxVoteOptions : Nat) (_voteOptionTreeDepth : Nat) : Ballot :=
  { nonce := 0, votes := List.replicate maxVoteOptions 0 }

/-- Shallow embedding of the Poll class state.  The three incremental quinary
Merkle trees are represented by their leaf lists (nextIndex = list length);
salts, commitments and circuit-input plumbing are omitted because they live in
maci-crypto and do not influence the claims below. -/
structure Poll where
  coordinatorKeypair : Keypair
  treeDepths : TreeDepths
  batchSizes : BatchSizes
  maxValues : MaxValues
  pollEndTimestamp : Int
  pollId : Int
  messages : List Message
  encPubKeys : List PubKey
  commands : List Cmd
  messageTreeLeaves : List Int
  stateLeaves : List StateLeaf
  ballots : List Ballot
  stateTreeLeaves : List Int
  ballotTreeLeaves : List Int
  numBatchesProcessed : Nat
  currentMessageBatchIndex : Nat
  tallyResult : List Int
  perVOSpentVoiceCredits : List Int
  totalSpentVoiceCredits : Int
  numBatchesTallied : Nat
  subsidy : List Int
  rbi : Nat
  cbi : Nat
  MM : Nat
  WW : Nat
  emptyBallot : Ballot
  deriving DecidableEq, Repr

/-- Poll constructor (Poll.ts lines 115-146): fresh empty arrays, a blank state
leaf at index 0, the blank ballot pushed into ballots, and zero-filled tally
and subsidy accumulators of length maxVoteOptions. -/
def mkPoll (pollEndTimestamp : Int) (coordinatorKeypair : Keypair)
    (treeDepths : TreeDepths) (batchSizes : BatchSizes) (maxValues : MaxValues)
    (pollId : Int) : Poll :=
  { coordinatorKeypair := coordinatorKeypair
    treeDepths := treeDepths
    batchSizes := batchSizes
    maxValues := maxValues
    pollEndTimestamp := pollEndTimestamp
    pollId := pollId
    messages := []
    encPubKeys := []
    commands := []
    messageTreeLeaves := []
    stateLeaves := [blankStateLeaf]
    ballots := [genBlankBallot maxValues.maxVoteOptions treeDepths.voteOptionTreeDepth]
    stateTreeLeaves := []
    ballotTreeLeaves := []
    numBatchesProcessed := 0
    currentMessageBatchIndex := 0
    tallyResult := List.replicate maxValues.maxVoteOptions 0
    perVOSpentVoiceCredits := List.replicate maxValues.maxVoteOptions 0
    totalSpentVoiceCredits := 0
    numBatchesTallied := 0
    subsidy := List.replicate maxValues.maxVoteOptions 0
    rbi := 0
    cbi := 0
    MM := 50
    WW := 4
    emptyBallot := genBlankBallot maxValues.maxVoteOptions treeDepths.voteOptionTreeDepth }

/-- Per-message witness data returned by processMessage (utils/types.ts
IProcessMessagesOutput; the Merkle-path fields are maci-crypto values and are
omitted). -/
structure ProcessMessageOutput where
  stateLeafIndex : Nat
  newStateLeaf : StateLeaf
  originalStateLeaf : StateLeaf
  originalVoteWeight : Int
  newBallot : Ballot
  originalBallot : Ballot
  command : PCommand
  deriving DecidableEq, Repr

/-- Embedding of Poll.processMessage (Poll.ts lines 178-286).  The argument
`decrypted` is the outcome of `PCommand.decrypt` (`none` models any exception
thrown before the index check, which the catch block converts to
FailedDecryption), and `verify` is the abstract signature check
`command.verifySignature(signature, pubKey)` with the decrypted signature
already folded in. -/
def processMessage (p : Poll) (verify : PCommand → PubKey → Bool)
    (decrypted : Option PCommand) :
    Except ProcessMessageErrors ProcessMessageOutput :=
  match decrypted with
  | none => Except.error ProcessMessageErrors.failedDecryption
  | some command =>
    let stateLeafIndex := command.stateIndex
    if stateLeafIndex ≥ (p.ballots.length : Int) ∨ stateLeafIndex < 1 ∨
        stateLeafIndex ≥ (p.stateTreeLeaves.length : Int) then
      Except.error ProcessMessageErrors.invalidStateLeafIndex
    else
      let stateLeaf := p.stateLeaves.getD stateLeafIndex.toNat blankStateLeaf
      let ballot := p.ballots.getD stateLeafIndex.toNat defaultBallot
      if verify command stateLeaf.pubKey = false then
        Except.error ProcessMessageErrors.invalidSignature
      else if command.nonce ≠ ballot.nonce + 1 then
        Except.error ProcessMessageErrors.invalidNonce
      else if command.voteOptionIndex < 0 ∨
          command.voteOptionIndex ≥ (p.maxValues.maxVoteOptions : Int) then
        Except.error ProcessMessageErrors.invalidVoteOptionIndex
      else
        let voteOptionIndex := command.voteOptionIndex.toNat
        let originalVoteWeight := ballot.votes.getD voteOptionIndex 0
        let voiceCreditsLeft := stateLeaf.voiceCreditBalance +
          originalVoteWeight * originalVoteWeight -
          command.newVoteWeight * command.newVoteWeight
        if voiceCreditsLeft < 0 then
          Except.error ProcessMessageErrors.insufficientVoiceCredits
        else
          Except.ok
            { stateLeafIndex := stateLeafIndex.toNat
              newStateLeaf :=
                { stateLeaf with
                  voiceCreditBalance := voiceCreditsLeft
                  pubKey := command.newPubKey }
              originalStateLeaf := stateLeaf
              originalVoteWeight := originalVoteWeight
              newBallot :=
                { ballot with
                  nonce := ballot.nonce + 1
                  votes := ballot.votes.set voteOptionIndex command.newVoteWeight }
              originalBallot := ballot
              command := command }

/-- Claim C1: for every vote command accepted by processMessage, the returned
newStateLeaf is the old leaf with pubKey replaced by command.newPubKey and
voiceCreditBalance set to old balance + wOld^2 - wNew^2 over unbounded
integers, the returned newBallot is the old ballot with nonce incremented and
votes[voteOptionIndex] set to wNew, and consequently post balance + wNew^2
equals pre balance + wOld^2. -/
theorem claim_C1_accepted_vote_updates (p : Poll) (verify : PCommand → PubKey → Bool)
    (cmd : PCommand) (out : ProcessMessageOutput)
    (h : processMessage p verify (some cmd) = Except.ok out) :
    out.newStateLeaf =
      { p.stateLeaves.getD cmd.stateIndex.toNat blankStateLeaf with
        pubKey := cmd.newPubKey
        voiceCreditBalance :=
          (p.stateLeaves.getD cmd.stateIndex.toNat blankStateLeaf).voiceCreditBalance +
          ((p.ballots.getD cmd.stateIndex.toNat defaultBallot).votes.getD cmd.voteOptionIndex.toNat 0) *
          ((p.ballots.getD cmd.stateIndex.toNat defaultBallot).votes.getD cmd.voteOptionIndex.toNat 0) -
          cmd.newVoteWeight * cmd.newVoteWeight } ∧
    out.newBallot =
      { p.ballots.getD cmd.stateIndex.toNat defaultBallot with
        nonce := (p.ballots.getD cmd.stateIndex.toNat defaultBallot).nonce + 1
        votes := (p.ballots.getD cmd.stateIndex.toNat defaultBallot).votes.set
          cmd.voteOptionIndex.toNat cmd.newVoteWeight } ∧
    out.newStateLeaf.voiceCreditBalance + cmd.newVoteWeight * cmd.newVoteWeight =
      (p.stateLeaves.getD cmd.stateIndex.toNat blankStateLeaf).voiceCreditBalance +
      ((p.ballots.getD cmd.stateIndex.toNat defaultBallot).votes.getD cmd.voteOptionIndex.toNat 0) *
      ((p.ballots.getD cmd.stateIndex.toNat defaultBallot).votes.getD cmd.voteOptionIndex.toNat 0) := by
  have key : ∀ (a b c : Int), a + b - c + c = a + b := by
    intro a b c
    ring
  unfold processMessage at h
  simp only at h
  split_ifs at h
  injection h with h
  subst h
  exact ⟨rfl, rfl, key _ _ _⟩

/-- Witness for claim C1 at a concrete accepted command. -/
theorem claim_C1_accepted_vote_updates_witness :
    processMessage
      { mkPoll 0 ⟨0, (0, 0)⟩ ⟨1, 1, 1, 1⟩ ⟨1, 1, 1⟩ ⟨3, 3⟩ 0 with
        stateLeaves := [blankStateLeaf, ⟨(7, 8), 100, 0⟩]
        ballots := [genBlankBallot 3 1, ⟨0, [0, 0, 0]⟩]
        stateTreeLeaves := [0, 0] }
      (fun _ _ => true)
      (some ⟨1, (9, 10), 2, 5, 1, 0, 0⟩) =
      Except.ok
        { stateLeafIndex := 1
          newStateLeaf := ⟨(9, 10), 75, 0⟩
          originalStateLeaf := ⟨(7, 8), 100, 0⟩
          originalVoteWeight := 0
          newBallot := ⟨1, [0, 0, 5]⟩
          originalBallot := ⟨0, [0, 0, 0]⟩
          command := ⟨1, (9, 10), 2, 5, 1, 0, 0⟩ } ∧
    (⟨(9, 10), 75, 0⟩ : StateLeaf).voiceCreditBalance + (5 : Int) * 5 =
      (100 : Int) + 0 * 0 := by
  have h := claim_C1_accepted_vote_updates
    { mkPoll 0 ⟨0, (0, 0)⟩ ⟨1, 1, 1, 1⟩ ⟨1, 1, 1⟩ ⟨3, 3⟩ 0 with
      stateLeaves := [blankStateLeaf, ⟨(7, 8), 100, 0⟩]
      ballots := [genBlankBallot 3 1, ⟨0, [0, 0, 0]⟩]
      stateTreeLeaves := [0, 0] }
    (fun _ _ => true)
    ⟨1, (9, 10), 2, 5, 1, 0, 0⟩
    { stateLeafIndex := 1
      newStateLeaf := ⟨(9, 10), 75, 0⟩
      originalStateLeaf := ⟨(7, 8), 100, 0⟩
      originalVoteWeight := 0
      newBallot := ⟨1, [0, 0, 5]⟩
      originalBallot := ⟨0, [0, 0, 0]⟩
      command := ⟨1, (9, 10), 2, 5, 1, 0, 0⟩ }
    (by rfl)
  exact ⟨by rfl, h.2.2⟩

/-- State leaf that processMessage reads for a command (Poll.ts line 197). -/
def lookedUpStateLeaf (p : Poll) (cmd : PCommand) : StateLeaf :=
  p.stateLeaves.getD cmd.stateIndex.toNat blankStateLeaf

/-- Ballot that processMessage reads for a command (Poll.ts line 200). -/
def lookedUpBallot (p : Poll) (cmd : PCommand) : Ballot :=
  p.ballots.getD cmd.stateIndex.toNat defaultBallot

/-- Rejection rule 1 of the spec: the state index is in range. -/
def stateIndexOk (p : Poll) (cmd : PCommand) : Prop :=
  1 ≤ cmd.stateIndex ∧
    cmd.stateIndex < min (p.ballots.length : Int) (p.stateTreeLeaves.length : Int)

/-- Rejection rule 2 of the spec: the signature verifies against the stored
state leaf's public key. -/
def signatureOk (p : Poll) (verify : PCommand → PubKey → Bool) (cmd : PCommand) : Prop :=
  verify cmd (lookedUpStateLeaf p cmd).pubKey = true

/-- Rejection rule 3 of the spec: the command nonce is the ballot nonce + 1. -/
def nonceOk (p : Poll) (cmd : PCommand) : Prop :=
  cmd.nonce = (lookedUpBallot p cmd).nonce + 1

/-- Rejection rule 4 of the spec: the vote option index is in range. -/
def voteOptionIndexOk (p : Poll) (cmd : PCommand) : Prop :=
  0 ≤ cmd.voteOptionIndex ∧ cmd.voteOptionIndex < (p.maxValues.maxVoteOptions : Int)

/-- Voice credits left by the quadratic accounting formula of the spec,
computed over unbounded integers. -/
def voiceCreditsLeftOf (p : Poll) (cmd : PCommand) : Int :=
  (lookedUpStateLeaf p cmd).voiceCreditBalance +
    ((lookedUpBallot p cmd).votes.getD cmd.voteOptionIndex.toNat 0) *
    ((lookedUpBallot p cmd).votes.getD cmd.voteOptionIndex.toNat 0) -
    cmd.newVoteWeight * cmd.newVoteWeight

/-- Rejection rule 5 of the spec: the remaining voice credits are nonnegative. -/
def creditsOk (p : Poll) (cmd : PCommand) : Prop :=
  0 ≤ voiceCreditsLeftOf p cmd

instance (p : Poll) (cmd : PCommand) : Decidable (stateIndexOk p cmd) := by
  unfold stateIndexOk
  infer_instance

instance (p : Poll) (verify : PCommand → PubKey → Bool) (cmd : PCommand) :
    Decidable (signatureOk p verify cmd) := by
  unfold signatureOk
  infer_instance

instance (p : Poll) (cmd : PCommand) : Decidable (nonceOk p cmd) := by
  unfold nonceOk
  infer_instance

instance (p : Poll) (cmd : PCommand) : Decidable (voteOptionIndexOk p cmd) := by
  unfold voteOptionIndexOk
  infer_instance

instance (p : Poll) (cmd : PCommand) : Decidable (creditsOk p cmd) := by
  unfold creditsOk
  infer_instance

/-- Witness record returned on success, expressed through the rule vocabulary. -/
def processMessageSuccessOutput (p : Poll) (cmd : PCommand) : ProcessMessageOutput :=
  { stateLeafIndex := cmd.stateIndex.toNat
    newStateLeaf :=
      { lookedUpStateLeaf p cmd with
        voiceCreditBalance := voiceCreditsLeftOf p cmd
        pubKey := cmd.newPubKey }
    originalStateLeaf := lookedUpStateLeaf p cmd
    originalVoteWeight := (lookedUpBallot p cmd).votes.getD cmd.voteOptionIndex.toNat 0
    newBallot :=
      { lookedUpBallot p cmd with
        nonce := (lookedUpBallot p cmd).nonce + 1
        votes := (lookedUpBallot p cmd).votes.set cmd.voteOptionIndex.toNat cmd.newVoteWeight }
    originalBallot := lookedUpBallot p cmd
    command := cmd }

/-- Claim C2: the rejection rules are evaluated in the fixed order
(index, signature, nonce, vote option index, credits) and the first rule that
fails determines the error kind; a failed decryption (or any other exception
before the checks) surfaces as FailedDecryption. -/
theorem claim_C2_rejection_rule_order (p : Poll) (verify : PCommand → PubKey → Bool)
    (cmd : PCommand) :
    processMessage p verify none = Except.error ProcessMessageErrors.failedDecryption ∧
    (processMessage p verify (some cmd) =
        Except.error ProcessMessageErrors.invalidStateLeafIndex ↔
      ¬ stateIndexOk p cmd) ∧
    (processMessage p verify (some cmd) =
        Except.error ProcessMessageErrors.invalidSignature ↔
      stateIndexOk p cmd ∧ ¬ signatureOk p verify cmd) ∧
    (processMessage p verify (some cmd) =
        Except.error ProcessMessageErrors.invalidNonce ↔
      stateIndexOk p cmd ∧ signatureOk p verify cmd ∧ ¬ nonceOk p cmd) ∧
    (processMessage p verify (some cmd) =
        Except.error ProcessMessageErrors.invalidVoteOptionIndex ↔
      stateIndexOk p cmd ∧ signatureOk p verify cmd ∧ nonceOk p cmd ∧
        ¬ voteOptionIndexOk p cmd) ∧
    (processMessage p verify (some cmd) =
        Except.error ProcessMessageErrors.insufficientVoiceCredits ↔
      stateIndexOk p cmd ∧ signatureOk p verify cmd ∧ nonceOk p cmd ∧
        voteOptionIndexOk p cmd ∧ ¬ creditsOk p cmd) ∧
    ((∃ out, processMessage p verify (some cmd) = Except.ok out) ↔
      stateIndexOk p cmd ∧ signatureOk p verify cmd ∧ nonceOk p cmd ∧
        voteOptionIndexOk p cmd ∧ creditsOk p cmd) := by
  have L1 : (cmd.stateIndex ≥ (p.ballots.length : Int) ∨ cmd.stateIndex < 1 ∨
      cmd.stateIndex ≥ (p.stateTreeLeaves.length : Int)) ↔ ¬ stateIndexOk p cmd := by
    unfold stateIndexOk
    omega
  have L2 : (verify cmd (p.stateLeaves.getD cmd.stateIndex.toNat blankStateLeaf).pubKey
      = false) ↔ ¬ signatureOk p verify cmd := by
    unfold signatureOk lookedUpStateLeaf
    cases verify cmd (p.stateLeaves.getD cmd.stateIndex.toNat blankStateLeaf).pubKey <;>
      simp
  have L3 : (cmd.nonce ≠ (p.ballots.getD cmd.stateIndex.toNat defaultBallot).nonce + 1) ↔
      ¬ nonceOk p cmd := by
    unfold nonceOk lookedUpBallot
    exact Iff.rfl
  have L4 : (cmd.voteOptionIndex < 0 ∨
      cmd.voteOptionIndex ≥ (p.maxValues.maxVoteOptions : Int)) ↔
      ¬ voteOptionIndexOk p cmd := by
    unfold voteOptionIndexOk
    omega
  have L5 : ((p.stateLeaves.getD cmd.stateIndex.toNat blankStateLeaf).voiceCreditBalance +
      ((p.ballots.getD cmd.stateIndex.toNat defaultBallot).votes.getD cmd.voteOptionIndex.toNat 0) *
      ((p.ballots.getD cmd.stateIndex.toNat defaultBallot).votes.getD cmd.voteOptionIndex.toNat 0) -
      cmd.newVoteWeight * cmd.newVoteWeight < 0) ↔ ¬ creditsOk p cmd := by
    unfold creditsOk voiceCreditsLeftOf lookedUpStateLeaf lookedUpBallot
    omega
  have hpm : processMessage p verify (some cmd) =
      (if ¬ stateIndexOk p cmd then
        Except.error ProcessMessageErrors.invalidStateLeafIndex
      else if ¬ signatureOk p verify cmd then
        Except.error ProcessMessageErrors.invalidSignature
      else if ¬ nonceOk p cmd then
        Except.error ProcessMessageErrors.invalidNonce
      else if ¬ voteOptionIndexOk p cmd then
        Except.error ProcessMessageErrors.invalidVoteOptionIndex
      else if ¬ creditsOk p cmd then
        Except.error ProcessMessageErrors.insufficientVoiceCredits
      else Except.ok (processMessageSuccessOutput p cmd)) := by
    unfold processMessage processMessageSuccessOutput voiceCreditsLeftOf
      lookedUpStateLeaf lookedUpBallot
    simp only [L1, L2, L3, L4, L5]
  refine ⟨rfl, ?_, ?_, ?_, ?_, ?_, ?_⟩ <;>
  · rw [hpm]
    by_cases hA : stateIndexOk p cmd <;>
    by_cases hB : signatureOk p verify cmd <;>
    by_cases hC : nonceOk p cmd <;>
    by_cases hD : voteOptionIndexOk p cmd <;>
    by_cases hE : creditsOk p cmd <;>
    simp [hA, hB, hC, hD, hE]

/-- Total number of message batches as computed by hasUnprocessedMessages
(Poll.ts lines 359-369): start from 1 when the message count is at most the
batch size, else the floor quotient, then bump when the count exceeds the
batch size and the remainder is positive.  The batch size is positive in any
real deployment; for batchSize = 0 JavaScript would produce Infinity, so the
claims below assume 0 < batchSize. -/
def totalBatches (numMessages batchSize : Nat) : Nat :=
  let t := if numMessages ≤ batchSize then 1 else numMessages / batchSize
  if batchSize < numMessages ∧ 0 < numMessages % batchSize then t + 1 else t

/-- Embedding of Poll.hasUnprocessedMessages (Poll.ts lines 359-369). -/
def hasUnprocessedMessages (numBatchesProcessed numMessages batchSize : Nat) : Bool :=
  numBatchesProcessed < totalBatches numMessages batchSize

/-- Claim C10: hasUnprocessedMessages computes totalBatches as 1 whenever the
message count is at most the batch size (including zero messages), and as
floor quotient plus a bump for a positive remainder otherwise, and returns
numBatchesProcessed < totalBatches; in particular a poll with zero messages
and zero processed batches reports one unprocessed batch. -/
theorem claim_C10_hasUnprocessedMessages (numBatchesProcessed numMessages batchSize : Nat)
    (_hbs : 0 < batchSize) :
    (numMessages ≤ batchSize → totalBatches numMessages batchSize = 1) ∧
    (batchSize < numMessages →
      totalBatches numMessages batchSize =
        numMessages / batchSize + (if 0 < numMessages % batchSize then 1 else 0)) ∧
    (hasUnprocessedMessages numBatchesProcessed numMessages batchSize = true ↔
      numBatchesProcessed < totalBatches numMessages batchSize) ∧
    totalBatches 0 batchSize = 1 ∧
    hasUnprocessedMessages 0 0 batchSize = true := by
  refine ⟨?_, ?_, ?_, ?_, ?_⟩
  · intro h
    unfold totalBatches
    simp only [if_pos h]
    rw [if_neg]
    omega
  · intro h
    unfold totalBatches
    simp only [if_neg (by omega : ¬ numMessages ≤ batchSize)]
    split_ifs with h1 h2 h3 <;> omega
  · unfold hasUnprocessedMessages
    simp
  · unfold totalBatches
    simp
  · unfold hasUnprocessedMessages totalBatches
    simp

/-- Witness for claim C10 at batch size 5. -/
theorem claim_C10_hasUnprocessedMessages_witness :
    (0 < 5 ∧ totalBatches 0 5 = 1 ∧ hasUnprocessedMessages 0 0 5 = true) ∧
    (7 ≤ 5 → totalBatches 7 5 = 1) := by
  have h := claim_C10_hasUnprocessedMessages 0 0 5 (by decide)
  have h7 := claim_C10_hasUnprocessedMessages 0 7 5 (by decide)
  exact ⟨⟨by decide, h.2.2.2.1, h.2.2.2.2⟩, fun hle => nomatch hle⟩

/-- First value assigned to currentMessageBatchIndex on the first call of
processMessages (Poll.ts lines 409-424): start from the message count and, if
it is positive, subtract the batch size when the remainder is zero and the
remainder otherwise. -/
def firstMessageBatchIndex (numMessages batchSize : Nat) : Nat :=
  if 0 < numMessages then
    if numMessages % batchSize = 0 then numMessages - batchSize
    else numMessages - numMessages % batchSize
  else numMessages

/-- Message indices visited by one batch of processMessages, in loop order
(Poll.ts lines 457-459): idx = currentMessageBatchIndex + batchSize - i - 1
for i = 0, ..., batchSize - 1. -/
def batchSlotIndices (currentMessageBatchIndex batchSize : Nat) : List Nat :=
  (List.range batchSize).map fun i => currentMessageBatchIndex + batchSize - i - 1

/-- End-of-call update of currentMessageBatchIndex (Poll.ts lines 598-600):
decrement by the batch size while positive. -/
def nextMessageBatchIndex (currentMessageBatchIndex batchSize : Nat) : Nat :=
  if 0 < currentMessageBatchIndex then currentMessageBatchIndex - batchSize
  else currentMessageBatchIndex

/-- Claim C3: processMessages handles exactly batchSize slots per call, in
descending index order idx = currentMessageBatchIndex + batchSize - 1 - i;
the first call sets currentMessageBatchIndex to the claimed value (0 for an
empty message list); the index is always a nonnegative multiple of the batch
size and is decremented by exactly batchSize after a batch while positive. -/
theorem claim_C3_batch_index_arithmetic (numMessages batchSize cmb : Nat)
    (_hbs : 0 < batchSize) :
    (batchSlotIndices cmb batchSize).length = batchSize ∧
    batchSlotIndices cmb batchSize =
      (List.range batchSize).map (fun i => cmb + batchSize - 1 - i) ∧
    (∀ i, i + 1 < batchSize →
      (batchSlotIndices cmb batchSize).getD (i + 1) 0 <
        (batchSlotIndices cmb batchSize).getD i 0) ∧
    (0 < numMessages →
      firstMessageBatchIndex numMessages batchSize =
        numMessages -
          (if numMessages % batchSize = 0 then batchSize else numMessages % batchSize)) ∧
    firstMessageBatchIndex 0 batchSize = 0 ∧
    firstMessageBatchIndex numMessages batchSize % batchSize = 0 ∧
    (cmb % batchSize = 0 → 0 < cmb →
      batchSize ≤ cmb ∧
      nextMessageBatchIndex cmb batchSize = cmb - batchSize ∧
      (cmb - batchSize) % batchSize = 0) := by
  have hdm := Nat.div_add_mod numMessages batchSize
  refine ⟨?_, ?_, ?_, ?_, ?_, ?_, ?_⟩
  · simp [batchSlotIndices]
  · unfold batchSlotIndices
    refine List.map_congr_left ?_
    intro i hi
    simp only [List.mem_range] at hi
    omega
  · intro i hi
    unfold batchSlotIndices
    rw [List.getD_eq_getElem?_getD, List.getD_eq_getElem?_getD,
      List.getElem?_map, List.getElem?_map, List.getElem?_range (by omega),
      List.getElem?_range (by omega)]
    simp only [Option.map_some', Option.getD_some]
    omega
  · intro h
    unfold firstMessageBatchIndex
    rw [if_pos h]
    split_ifs with hr <;> omega
  · simp [firstMessageBatchIndex]
  · unfold firstMessageBatchIndex
    split_ifs with h0 hr
    · obtain ⟨k, hk⟩ := Nat.dvd_of_mod_eq_zero hr
      subst hk
      have h1 : batchSize * k - batchSize = batchSize * (k - 1) := by
        cases k
        · simp
        · rw [Nat.mul_succ, Nat.add_sub_cancel, Nat.succ_sub_one]
      rw [h1]
      exact Nat.mul_mod_right batchSize _
    · have h2 : numMessages - numMessages % batchSize =
          batchSize * (numMessages / batchSize) := by
        omega
      rw [h2]
      exact Nat.mul_mod_right batchSize _
    · omega
  · intro hmod hpos
    have hle : batchSize ≤ cmb := by
      rcases Nat.lt_or_ge cmb batchSize with h | h
      · rw [Nat.mod_eq_of_lt h] at hmod
        omega
      · exact h
    refine ⟨hle, ?_, ?_⟩
    · unfold nextMessageBatchIndex
      rw [if_pos hpos]
    · obtain ⟨k, hk⟩ := Nat.dvd_of_mod_eq_zero hmod
      subst hk
      have h1 : batchSize * k - batchSize = batchSize * (k - 1) := by
        cases k
        · simp
        · rw [Nat.mul_succ, Nat.add_sub_cancel, Nat.succ_sub_one]
      rw [h1]
      exact Nat.mul_mod_right batchSize _

/-- Witness for claim C3 at 8 messages, batch size 5, index 5. -/
theorem claim_C3_batch_index_arithmetic_witness :
    (0 : Nat) < 5 ∧
    batchSlotIndices 5 5 = [9, 8, 7, 6, 5] ∧
    firstMessageBatchIndex 8 5 = 5 ∧
    nextMessageBatchIndex 5 5 = 0 := by
  have h := claim_C3_batch_index_arithmetic 8 5 5 (by decide)
  refine ⟨by decide, ?_, ?_, (h.2.2.2.2.2.2 (by decide) (by decide)).2.1⟩
  · rw [h.2.1]
    decide
  · rw [h.2.2.2.1 (by decide)]
    decide

/-- Shared-state lock fields of MaciState used by processMessages. -/
structure MaciStateLock where
  pollBeingProcessed : Bool
  currentPollBeingProcessed : Option Int
  deriving DecidableEq, Repr

/-- Embedding of the lock handling at the top of processMessages (Poll.ts
lines 389-407): when this poll has processed no batch yet it first sets
pollBeingProcessed and currentPollBeingProcessed to its own id, and only then
the assertion compares currentPollBeingProcessed with the caller's pollId;
returns none when the assertion fires and the updated lock otherwise. -/
def processMessagesLockCheck (lock : MaciStateLock) (numBatchesProcessed : Nat)
    (pollId : Int) : Option MaciStateLock :=
  let lock1 :=
    if numBatchesProcessed = 0 then
      { pollBeingProcessed := true, currentPollBeingProcessed := some pollId }
    else lock
  if lock1.pollBeingProcessed then
    if lock1.currentPollBeingProcessed = some pollId then some lock1 else none
  else some lock1

/-- Claim C8 is contradicted by the code: with poll A (id 0) holding the lock,
poll B's first call (numBatchesProcessed = 0, id 1) passes the assertion and
overwrites the lock with B's id, instead of failing; only B's subsequent
calls (numBatchesProcessed > 0) fail as the claim demands. -/
theorem claim_C8_lock_first_call_steals_lock :
    processMessagesLockCheck ⟨true, some 0⟩ 0 1 =
      some ⟨true, some 1⟩ ∧
    processMessagesLockCheck ⟨true, some 0⟩ 1 1 = none := by
  constructor <;> rfl

/-- Per-batch witness arrays built by processMessages; unshift = cons. -/
structure BatchWitness where
  currentStateLeaves : List StateLeaf
  currentBallots : List Ballot
  currentVoteWeights : List Int
  deriving DecidableEq, Repr

/-- Embedding of one msgType-1 slot of the processMessages batch loop
(Poll.ts lines 469-519).  On success the originals are prepended to the
witness arrays and the state leaf, state tree, ballot and ballot tree at the
command's index are updated; on a ProcessMessageError the blank index-0
placeholders are prepended and the poll is left untouched.  The leaf hash
functions of the state and ballot trees (maci-crypto Poseidon) are abstract
parameters. -/
def processVoteSlot (hashSL : StateLeaf → Int) (hashB : Ballot → Int)
    (verify : PCommand → PubKey → Bool) (decrypted : Option PCommand)
    (p : Poll) (acc : BatchWitness) : Poll × BatchWitness :=
  match processMessage p verify decrypted with
  | Except.ok r =>
    ({ p with
        stateLeaves := p.stateLeaves.set r.stateLeafIndex r.newStateLeaf
        stateTreeLeaves := p.stateTreeLeaves.set r.stateLeafIndex (hashSL r.newStateLeaf)
        ballots := p.ballots.set r.stateLeafIndex r.newBallot
        ballotTreeLeaves := p.ballotTreeLeaves.set r.stateLeafIndex (hashB r.newBallot) },
     { currentStateLeaves := r.originalStateLeaf :: acc.currentStateLeaves
       currentBallots := r.originalBallot :: acc.currentBallots
       currentVoteWeights := r.originalVoteWeight :: acc.currentVoteWeights })
  | Except.error _ =>
    (p,
     { currentStateLeaves := p.stateLeaves.getD 0 blankStateLeaf :: acc.currentStateLeaves
       currentBallots := p.ballots.getD 0 defaultBallot :: acc.currentBallots
       currentVoteWeights :=
         (p.ballots.getD 0 defaultBallot).votes.getD 0 0 :: acc.currentVoteWeights })

/-- Claim C4: for every vote message rejected with a ProcessMessageError, the
slot handler leaves stateLeaves, stateTree, ballots and ballotTree unchanged,
prepends the blank index-0 placeholders to the witness arrays, and keeps the
rejected message present in messages, messageTree, encPubKeys and commands. -/
theorem claim_C4_rejected_message_no_mutation (p : Poll)
    (hashSL : StateLeaf → Int) (hashB : Ballot → Int)
    (verify : PCommand → PubKey → Bool) (decrypted : Option PCommand)
    (acc : BatchWitness) (e : ProcessMessageErrors)
    (h : processMessage p verify decrypted = Except.error e) :
    (processVoteSlot hashSL hashB verify decrypted p acc).1.stateLeaves = p.stateLeaves ∧
    (processVoteSlot hashSL hashB verify decrypted p acc).1.stateTreeLeaves = p.stateTreeLeaves ∧
    (processVoteSlot hashSL hashB verify decrypted p acc).1.ballots = p.ballots ∧
    (processVoteSlot hashSL hashB verify decrypted p acc).1.ballotTreeLeaves = p.ballotTreeLeaves ∧
    (processVoteSlot hashSL hashB verify decrypted p acc).1.messages = p.messages ∧
    (processVoteSlot hashSL hashB verify decrypted p acc).1.messageTreeLeaves = p.messageTreeLeaves ∧
    (processVoteSlot hashSL hashB verify decrypted p acc).1.encPubKeys = p.encPubKeys ∧
    (processVoteSlot hashSL hashB verify decrypted p acc).1.commands = p.commands ∧
    (processVoteSlot hashSL hashB verify decrypted p acc).2 =
      { currentStateLeaves := p.stateLeaves.getD 0 blankStateLeaf :: acc.currentStateLeaves
        currentBallots := p.ballots.getD 0 defaultBallot :: acc.currentBallots
        currentVoteWeights :=
          (p.ballots.getD 0 defaultBallot).votes.getD 0 0 :: acc.currentVoteWeights } := by
  unfold processVoteSlot
  rw [h]
  exact ⟨rfl, rfl, rfl, rfl, rfl, rfl, rfl, rfl, rfl⟩

/-- Witness for claim C4 at a concrete rejected message (decryption failure). -/
theorem claim_C4_rejected_message_no_mutation_witness :
    (processVoteSlot (fun _ => 0) (fun _ => 0) (fun _ _ => true) none
        (mkPoll 0 ⟨0, (0, 0)⟩ ⟨1, 1, 1, 1⟩ ⟨1, 1, 1⟩ ⟨3, 3⟩ 0)
        ⟨[], [], []⟩).1.ballots =
      (mkPoll 0 ⟨0, (0, 0)⟩ ⟨1, 1, 1, 1⟩ ⟨1, 1, 1⟩ ⟨3, 3⟩ 0).ballots ∧
    (processVoteSlot (fun _ => 0) (fun _ => 0) (fun _ _ => true) none
        (mkPoll 0 ⟨0, (0, 0)⟩ ⟨1, 1, 1, 1⟩ ⟨1, 1, 1⟩ ⟨3, 3⟩ 0)
        ⟨[], [], []⟩).2.currentBallots = [genBlankBallot 3 1] := by
  have h := claim_C4_rejected_message_no_mutation
    (mkPoll 0 ⟨0, (0, 0)⟩ ⟨1, 1, 1, 1⟩ ⟨1, 1, 1⟩ ⟨3, 3⟩ 0)
    (fun _ => 0) (fun _ => 0) (fun _ _ => true) none ⟨[], [], []⟩
    ProcessMessageErrors.failedDecryption (by rfl)
  refine ⟨h.2.2.1, ?_⟩
  rw [h.2.2.2.2.2.2.2.2]
  decide

/-- Validity guard of publishMessage (the assertions in Poll.ts lines
322-329): msgType 1, both public-key coordinates and every data word below
SNARK_FIELD_SIZE.  A failed assertion throws before any mutation, so an
invalid call leaves the poll unchanged in this embedding. -/
def publishMessageOk (m : Message) (encPubKey : PubKey) : Bool :=
  m.msgType == 1 && decide (encPubKey.1 < SNARK_FIELD_SIZE) &&
    decide (encPubKey.2 < SNARK_FIELD_SIZE) &&
    m.data.all fun d => decide (d < SNARK_FIELD_SIZE)

/-- Embedding of Poll.publishMessage (Poll.ts lines 321-352): append the
encryption key and the message, insert the message hash into the message
tree, and push the decrypted command, or a placeholder zero PCommand built
from a freshly generated keypair when decryption fails.  The message hash and
the fresh keypair's public key are abstract parameters. -/
def publishMessage (hashMsg : Message → PubKey → Int) (fallbackKey : PubKey)
    (p : Poll) (m : Message) (encPubKey : PubKey)
    (decrypted : Option PCommand) : Poll :=
  if publishMessageOk m encPubKey then
    { p with
        encPubKeys := p.encPubKeys ++ [encPubKey]
        messages := p.messages ++ [m]
        messageTreeLeaves := p.messageTreeLeaves ++ [hashMsg m encPubKey]
        commands := p.commands ++
          [match decrypted with
            | some c => Cmd.pcmd c
            | none => Cmd.pcmd ⟨0, fallbackKey, 0, 0, 0, 0, 0⟩] }
  else p

/-- Validity guard of topupMessage (the assertions in Poll.ts lines
293-297): msgType 2 and every data word below SNARK_FIELD_SIZE. -/
def topupMessageOk (m : Message) : Bool :=
  m.msgType == 2 && m.data.all fun d => decide (d < SNARK_FIELD_SIZE)

/-- Embedding of Poll.topupMessage (Poll.ts lines 292-313): append the
message, push the fixed pad key, insert the message hash with the pad key
into the message tree, and push a TCommand from the first two data words. -/
def topupMessage (hashMsg : Message → PubKey → Int) (p : Poll) (m : Message) : Poll :=
  if topupMessageOk m then
    { p with
        messages := p.messages ++ [m]
        encPubKeys := p.encPubKeys ++ [padKey]
        messageTreeLeaves := p.messageTreeLeaves ++ [hashMsg m padKey]
        commands := p.commands ++ [Cmd.tcmd (m.data.getD 0 0) (m.data.getD 1 0) p.pollId] }
  else p

/-- One ingest call: either publishMessage or topupMessage. -/
inductive IngestOp where
  | publish (m : Message) (encPubKey : PubKey) (decrypted : Option PCommand)
      (fallbackKey : PubKey)
  | topup (m : Message)

/-- Dispatch one ingest call on a poll. -/
def ingest (hashMsg : Message → PubKey → Int) (p : Poll) : IngestOp → Poll
  | IngestOp.publish m encPubKey decrypted fallbackKey =>
      publishMessage hashMsg fallbackKey p m encPubKey decrypted
  | IngestOp.topup m => topupMessage hashMsg p m

/-- Ingest synchronization invariant of the spec: the three arrays and the
message tree stay in lock-step. -/
def ingestInvariant (p : Poll) : Prop :=
  p.messages.length = p.encPubKeys.length ∧
  p.messages.length = p.commands.length ∧
  p.messages.length = p.messageTreeLeaves.length

/-- Claim C5: every successful publishMessage or topupMessage call appends
exactly one element to messages, encPubKeys and commands and inserts exactly
one message-tree leaf (also when PCommand decryption fails inside
publishMessage), and hence after any sequence of ingest calls the three array
lengths and messageTree.nextIndex are all equal. -/
theorem claim_C5_ingest_keeps_arrays_synchronized
    (hashMsg : Message → PubKey → Int) :
    (∀ (p : Poll) (m : Message) (encPubKey : PubKey) (decrypted : Option PCommand)
        (fallbackKey : PubKey), publishMessageOk m encPubKey = true →
      (publishMessage hashMsg fallbackKey p m encPubKey decrypted).messages.length =
          p.messages.length + 1 ∧
      (publishMessage hashMsg fallbackKey p m encPubKey decrypted).encPubKeys.length =
          p.encPubKeys.length + 1 ∧
      (publishMessage hashMsg fallbackKey p m encPubKey decrypted).commands.length =
          p.commands.length + 1 ∧
      (publishMessage hashMsg fallbackKey p m encPubKey decrypted).messageTreeLeaves.length =
          p.messageTreeLeaves.length + 1) ∧
    (∀ (p : Poll) (m : Message), topupMessageOk m = true →
      (topupMessage hashMsg p m).messages.length = p.messages.length + 1 ∧
      (topupMessage hashMsg p m).encPubKeys.length = p.encPubKeys.length + 1 ∧
      (topupMessage hashMsg p m).commands.length = p.commands.length + 1 ∧
      (topupMessage hashMsg p m).messageTreeLeaves.length =
          p.messageTreeLeaves.length + 1) ∧
    (∀ (p : Poll) (ops : List IngestOp), ingestInvariant p →
      ingestInvariant (ops.foldl (ingest hashMsg) p)) := by
  refine ⟨?_, ?_, ?_⟩
  · intro p m encPubKey decrypted fallbackKey hok
    unfold publishMessage
    rw [if_pos hok]
    simp
  · intro p m hok
    unfold topupMessage
    rw [if_pos hok]
    simp
  · intro p ops
    induction ops generalizing p with
    | nil => exact fun h => h
    | cons op ops ih =>
      intro hinv
      rw [List.foldl_cons]
      refine ih _ ?_
      cases op with
      | publish m encPubKey decrypted fallbackKey =>
        unfold ingest publishMessage
        simp only
        split_ifs with hok
        · unfold ingestInvariant at hinv ⊢
          simp only [List.length_append, List.length_cons, List.length_nil]
          omega
        · exact hinv
      | topup m =>
        unfold ingest topupMessage
        simp only
        split_ifs with hok
        · unfold ingestInvariant at hinv ⊢
          simp only [List.length_append, List.length_cons, List.length_nil]
          omega
        · exact hinv

/-- Witness for claim C5: a fresh poll ingesting one vote message whose
decryption fails and then one topup message keeps the four counts equal. -/
theorem claim_C5_ingest_keeps_arrays_synchronized_witness :
    publishMessageOk ⟨1, [0]⟩ (1, 2) = true ∧
    topupMessageOk ⟨2, [1, 50]⟩ = true ∧
    ingestInvariant
      ([IngestOp.publish ⟨1, [0]⟩ (1, 2) none (3, 4), IngestOp.topup ⟨2, [1, 50]⟩].foldl
        (ingest fun _ _ => 7)
        (mkPoll 0 ⟨0, (0, 0)⟩ ⟨1, 1, 1, 1⟩ ⟨1, 1, 1⟩ ⟨3, 3⟩ 0)) := by
  refine ⟨by decide, by decide, ?_⟩
  exact (claim_C5_ingest_keeps_arrays_synchronized (fun _ _ => 7)).2.2
    (mkPoll 0 ⟨0, (0, 0)⟩ ⟨1, 1, 1, 1⟩ ⟨1, 1, 1⟩ ⟨3, 3⟩ 0)
    [IngestOp.publish ⟨1, [0]⟩ (1, 2) none (3, 4), IngestOp.topup ⟨2, [1, 50]⟩]
    ⟨rfl, rfl, rfl⟩

/-- Sum of the first maxVoteOptions vote weights of a ballot. -/
def sumVotes (maxVoteOptions : Nat) (b : Ballot) : Int :=
  ((List.range maxVoteOptions).map fun j => b.votes.getD j 0).sum

/-- Sum of the squared first maxVoteOptions vote weights of a ballot. -/
def sumVotesSq (maxVoteOptions : Nat) (b : Ballot) : Int :=
  ((List.range maxVoteOptions).map fun j => b.votes.getD j 0 * b.votes.getD j 0).sum

/-- Inner loop of tallyVotes for one ballot (Poll.ts lines 985-993): for every
vote option j below maxVoteOptions, add votes[j] to tallyResult[j], its square
to perVOSpentVoiceCredits[j] and to totalSpentVoiceCredits.  The accumulators
have length maxVoteOptions throughout (the constructor creates them so), which
the range-map formulation makes explicit. -/
def accumBallotTally (maxVoteOptions : Nat) (p : Poll) (b : Ballot) : Poll :=
  { p with
      tallyResult :=
        (List.range maxVoteOptions).map fun j => p.tallyResult.getD j 0 + b.votes.getD j 0
      perVOSpentVoiceCredits :=
        (List.range maxVoteOptions).map fun j =>
          p.perVOSpentVoiceCredits.getD j 0 + b.votes.getD j 0 * b.votes.getD j 0
      totalSpentVoiceCredits :=
        p.totalSpentVoiceCredits + sumVotesSq maxVoteOptions b }

/-- Accumulation part of Poll.tallyVotes (Poll.ts lines 936-994, loop at
978-994): tally the ballots with indices numBatchesTallied * tallyBatchSize up
to (exclusive) min of that plus tallyBatchSize and the ballot count, then
increment numBatchesTallied.  Salts and commitments are maci-crypto values and
not modelled. -/
def tallyVotesStep (p : Poll) : Poll :=
  let batchSize := p.batchSizes.tallyBatchSize
  let batchStartIndex := p.numBatchesTallied * batchSize
  let batch := (p.ballots.drop batchStartIndex).take batchSize
  let pAcc := batch.foldl (accumBallotTally p.maxValues.maxVoteOptions) p
  { pAcc with numBatchesTallied := pAcc.numBatchesTallied + 1 }

/-- Embedding of Poll.hasUntalliedBallots (Poll.ts lines 750-753). -/
def hasUntalliedBallots (p : Poll) : Bool :=
  decide (p.numBatchesTallied * p.batchSizes.tallyBatchSize < p.ballots.length)

/-- Iterated tallyVotes calls. -/
def tallyRounds : Nat → Poll → Poll
  | 0, p => p
  | n + 1, p => tallyVotesStep (tallyRounds n p)

theorem sum_map_add_int (l : List Nat) (f g : Nat → Int) :
    (l.map fun j => f j + g j).sum = (l.map f).sum + (l.map g).sum := by
  induction l with
  | nil => simp
  | cons a l ih =>
    simp only [List.map_cons, List.sum_cons, ih]
    ring

theorem map_getD_range_eq_self (t : List Int) :
    ((List.range t.length).map fun j => t.getD j 0) = t := by
  apply List.ext_getElem
  · simp
  · intro i h1 h2
    simp only [List.getElem_map, List.getElem_range]
    rw [List.getD_eq_getElem?_getD, List.getElem?_eq_getElem h2]
    rfl

theorem accumBallotTally_getD (maxVoteOptions : Nat) (p : Poll) (b : Ballot) (j : Nat)
    (hj : j < maxVoteOptions) :
    (accumBallotTally maxVoteOptions p b).tallyResult.getD j 0 =
      p.tallyResult.getD j 0 + b.votes.getD j 0 ∧
    (accumBallotTally maxVoteOptions p b).perVOSpentVoiceCredits.getD j 0 =
      p.perVOSpentVoiceCredits.getD j 0 + b.votes.getD j 0 * b.votes.getD j 0 := by
  unfold accumBallotTally
  constructor <;>
  · rw [List.getD_eq_getElem?_getD, List.getElem?_map, List.getElem?_range hj]
    rfl

theorem accumBallotTally_lengths (maxVoteOptions : Nat) (p : Poll) (b : Ballot) :
    (accumBallotTally maxVoteOptions p b).tallyResult.length = maxVoteOptions ∧
    (accumBallotTally maxVoteOptions p b).perVOSpentVoiceCredits.length =
      maxVoteOptions := by
  unfold accumBallotTally
  simp

theorem accumBallotTally_sums (maxVoteOptions : Nat) (p : Poll) (b : Ballot)
    (hlen1 : p.tallyResult.length = maxVoteOptions)
    (hlen2 : p.perVOSpentVoiceCredits.length = maxVoteOptions) :
    (accumBallotTally maxVoteOptions p b).tallyResult.sum =
      p.tallyResult.sum + sumVotes maxVoteOptions b ∧
    (accumBallotTally maxVoteOptions p b).perVOSpentVoiceCredits.sum =
      p.perVOSpentVoiceCredits.sum + sumVotesSq maxVoteOptions b := by
  unfold accumBallotTally sumVotes sumVotesSq
  constructor
  · simp only
    rw [sum_map_add_int]
    congr 1
    rw [← hlen1, map_getD_range_eq_self]
  · simp only
    rw [sum_map_add_int]
    congr 1
    rw [← hlen2, map_getD_range_eq_self]

theorem foldl_accumBallotTally_fields (maxVoteOptions : Nat) (L : List Ballot) (p : Poll) :
    (L.foldl (accumBallotTally maxVoteOptions) p).ballots = p.ballots ∧
    (L.foldl (accumBallotTally maxVoteOptions) p).batchSizes = p.batchSizes ∧
    (L.foldl (accumBallotTally maxVoteOptions) p).maxValues = p.maxValues ∧
    (L.foldl (accumBallotTally maxVoteOptions) p).numBatchesTallied =
      p.numBatchesTallied := by
  induction L generalizing p with
  | nil => exact ⟨rfl, rfl, rfl, rfl⟩
  | cons b L ih =>
    rw [List.foldl_cons]
    exact ih (accumBallotTally maxVoteOptions p b)

theorem foldl_accumBallotTally_total (maxVoteOptions : Nat) (L : List Ballot) (p : Poll) :
    (L.foldl (accumBallotTally maxVoteOptions) p).totalSpentVoiceCredits =
      p.totalSpentVoiceCredits + (L.map (sumVotesSq maxVoteOptions)).sum := by
  induction L generalizing p with
  | nil => simp
  | cons b L ih =>
    rw [List.foldl_cons, ih]
    simp only [List.map_cons, List.sum_cons]
    show p.totalSpentVoiceCredits + sumVotesSq maxVoteOptions b + _ = _
    ring

theorem foldl_accumBallotTally_getD (maxVoteOptions : Nat) (L : List Ballot) (p : Poll)
    (j : Nat) (hj : j < maxVoteOptions) :
    (L.foldl (accumBallotTally maxVoteOptions) p).tallyResult.getD j 0 =
      p.tallyResult.getD j 0 + (L.map fun b => b.votes.getD j 0).sum ∧
    (L.foldl (accumBallotTally maxVoteOptions) p).perVOSpentVoiceCredits.getD j 0 =
      p.perVOSpentVoiceCredits.getD j 0 +
        (L.map fun b => b.votes.getD j 0 * b.votes.getD j 0).sum := by
  induction L generalizing p with
  | nil => simp
  | cons b L ih =>
    rw [List.foldl_cons]
    obtain ⟨t1, t2⟩ := ih (accumBallotTally maxVoteOptions p b)
    obtain ⟨a1, a2⟩ := accumBallotTally_getD maxVoteOptions p b j hj
    constructor
    · rw [t1, a1]
      simp only [List.map_cons, List.sum_cons]
      ring
    · rw [t2, a2]
      simp only [List.map_cons, List.sum_cons]
      ring

theorem foldl_accumBallotTally_sums (maxVoteOptions : Nat) (L : List Ballot) (p : Poll)
    (hlen1 : p.tallyResult.length = maxVoteOptions)
    (hlen2 : p.perVOSpentVoiceCredits.length = maxVoteOptions) :
    (L.foldl (accumBallotTally maxVoteOptions) p).tallyResult.sum =
      p.tallyResult.sum + (L.map (sumVotes maxVoteOptions)).sum ∧
    (L.foldl (accumBallotTally maxVoteOptions) p).perVOSpentVoiceCredits.sum =
      p.perVOSpentVoiceCredits.sum + (L.map (sumVotesSq maxVoteOptions)).sum := by
  induction L generalizing p with
  | nil => simp
  | cons b L ih =>
    rw [List.foldl_cons]
    obtain ⟨hl1, hl2⟩ := accumBallotTally_lengths maxVoteOptions p b
    obtain ⟨s1, s2⟩ := ih (accumBallotTally maxVoteOptions p b) hl1 hl2
    obtain ⟨a1, a2⟩ := accumBallotTally_sums maxVoteOptions p b hlen1 hlen2
    constructor
    · rw [s1, a1]
      simp only [List.map_cons, List.sum_cons]
      ring
    · rw [s2, a2]
      simp only [List.map_cons, List.sum_cons]
      ring

theorem foldl_accumBallotTally_congr (maxVoteOptions : Nat) (L : List Ballot)
    (q q' : Poll)
    (h1 : q.tallyResult = q'.tallyResult)
    (h2 : q.perVOSpentVoiceCredits = q'.perVOSpentVoiceCredits)
    (h3 : q.totalSpentVoiceCredits = q'.totalSpentVoiceCredits) :
    (L.foldl (accumBallotTally maxVoteOptions) q).tallyResult =
      (L.foldl (accumBallotTally maxVoteOptions) q').tallyResult ∧
    (L.foldl (accumBallotTally maxVoteOptions) q).perVOSpentVoiceCredits =
      (L.foldl (accumBallotTally maxVoteOptions) q').perVOSpentVoiceCredits ∧
    (L.foldl (accumBallotTally maxVoteOptions) q).totalSpentVoiceCredits =
      (L.foldl (accumBallotTally maxVoteOptions) q').totalSpentVoiceCredits := by
  induction L generalizing q q' with
  | nil => exact ⟨h1, h2, h3⟩
  | cons b L ih =>
    rw [List.foldl_cons, List.foldl_cons]
    refine ih (accumBallotTally maxVoteOptions q b) (accumBallotTally maxVoteOptions q' b)
      ?_ ?_ ?_ <;>
    · unfold accumBallotTally
      simp only [h1, h2, h3]

theorem tallyRounds_fields (n : Nat) (p : Poll) :
    (tallyRounds n p).ballots = p.ballots ∧
    (tallyRounds n p).batchSizes = p.batchSizes ∧
    (tallyRounds n p).maxValues = p.maxValues ∧
    (tallyRounds n p).numBatchesTallied = p.numBatchesTallied + n := by
  induction n with
  | zero => exact ⟨rfl, rfl, rfl, by simp [tallyRounds]⟩
  | succ n ih =>
    obtain ⟨hb, hbs, hmv, hnb⟩ := ih
    have hf := foldl_accumBallotTally_fields (tallyRounds n p).maxValues.maxVoteOptions
      (((tallyRounds n p).ballots.drop
          ((tallyRounds n p).numBatchesTallied * (tallyRounds n p).batchSizes.tallyBatchSize)).take
        (tallyRounds n p).batchSizes.tallyBatchSize)
      (tallyRounds n p)
    show (tallyVotesStep (tallyRounds n p)).ballots = p.ballots ∧
      (tallyVotesStep (tallyRounds n p)).batchSizes = p.batchSizes ∧
      (tallyVotesStep (tallyRounds n p)).maxValues = p.maxValues ∧
      (tallyVotesStep (tallyRounds n p)).numBatchesTallied = p.numBatchesTallied + (n + 1)
    unfold tallyVotesStep
    simp only
    refine ⟨?_, ?_, ?_, ?_⟩
    · rw [hf.1, hb]
    · rw [hf.2.1, hbs]
    · rw [hf.2.2.1, hmv]
    · rw [hf.2.2.2, hnb]
      omega

theorem tallyRounds_state (n : Nat) (p : Poll) (h0 : p.numBatchesTallied = 0) :
    (tallyRounds n p).tallyResult =
      ((p.ballots.take (n * p.batchSizes.tallyBatchSize)).foldl
        (accumBallotTally p.maxValues.maxVoteOptions) p).tallyResult ∧
    (tallyRounds n p).perVOSpentVoiceCredits =
      ((p.ballots.take (n * p.batchSizes.tallyBatchSize)).foldl
        (accumBallotTally p.maxValues.maxVoteOptions) p).perVOSpentVoiceCredits ∧
    (tallyRounds n p).totalSpentVoiceCredits =
      ((p.ballots.take (n * p.batchSizes.tallyBatchSize)).foldl
        (accumBallotTally p.maxValues.maxVoteOptions) p).totalSpentVoiceCredits := by
  induction n with
  | zero => simp [tallyRounds]
  | succ n ih =>
    obtain ⟨ht, hp, htot⟩ := ih
    obtain ⟨hb, hbs, hmv, hnb⟩ := tallyRounds_fields n p
    rw [h0, Nat.zero_add] at hnb
    show (tallyVotesStep (tallyRounds n p)).tallyResult =
        ((p.ballots.take ((n + 1) * p.batchSizes.tallyBatchSize)).foldl
          (accumBallotTally p.maxValues.maxVoteOptions) p).tallyResult ∧
      (tallyVotesStep (tallyRounds n p)).perVOSpentVoiceCredits =
        ((p.ballots.take ((n + 1) * p.batchSizes.tallyBatchSize)).foldl
          (accumBallotTally p.maxValues.maxVoteOptions) p).perVOSpentVoiceCredits ∧
      (tallyVotesStep (tallyRounds n p)).totalSpentVoiceCredits =
        ((p.ballots.take ((n + 1) * p.batchSizes.tallyBatchSize)).foldl
          (accumBallotTally p.maxValues.maxVoteOptions) p).totalSpentVoiceCredits
    unfold tallyVotesStep
    simp only
    rw [hb, hbs, hmv, hnb]
    have hsplit : p.ballots.take ((n + 1) * p.batchSizes.tallyBatchSize) =
        p.ballots.take (n * p.batchSizes.tallyBatchSize) ++
          ((p.ballots.drop (n * p.batchSizes.tallyBatchSize)).take
            p.batchSizes.tallyBatchSize) := by
      rw [Nat.succ_mul]
      exact List.take_add p.ballots (n * p.batchSizes.tallyBatchSize)
        p.batchSizes.tallyBatchSize
    rw [hsplit, List.foldl_append]
    exact foldl_accumBallotTally_congr p.maxValues.maxVoteOptions _ _ _ ht hp htot

/-- Claim C6: each tallyVotes call accumulates votes, their squares and the
running total over the batch of ballots starting at
numBatchesTallied * tallyBatchSize (clipped at the ballot count), and once
hasUntalliedBallots turns false the sum of tallyResult equals the sum over
all ballots and options of the votes, and the sum of perVOSpentVoiceCredits
equals totalSpentVoiceCredits. -/
theorem claim_C6_tally_accumulation_and_sums :
    (∀ (p : Poll) (j : Nat), j < p.maxValues.maxVoteOptions →
      (tallyVotesStep p).tallyResult.getD j 0 =
        p.tallyResult.getD j 0 +
          (((p.ballots.drop (p.numBatchesTallied * p.batchSizes.tallyBatchSize)).take
              p.batchSizes.tallyBatchSize).map fun b => b.votes.getD j 0).sum ∧
      (tallyVotesStep p).perVOSpentVoiceCredits.getD j 0 =
        p.perVOSpentVoiceCredits.getD j 0 +
          (((p.ballots.drop (p.numBatchesTallied * p.batchSizes.tallyBatchSize)).take
              p.batchSizes.tallyBatchSize).map
            fun b => b.votes.getD j 0 * b.votes.getD j 0).sum ∧
      (tallyVotesStep p).totalSpentVoiceCredits =
        p.totalSpentVoiceCredits +
          (((p.ballots.drop (p.numBatchesTallied * p.batchSizes.tallyBatchSize)).take
              p.batchSizes.tallyBatchSize).map
            (sumVotesSq p.maxValues.maxVoteOptions)).sum) ∧
    (∀ (p : Poll) (n : Nat),
      p.tallyResult = List.replicate p.maxValues.maxVoteOptions 0 →
      p.perVOSpentVoiceCredits = List.replicate p.maxValues.maxVoteOptions 0 →
      p.totalSpentVoiceCredits = 0 →
      p.numBatchesTallied = 0 →
      hasUntalliedBallots (tallyRounds n p) = false →
      (tallyRounds n p).tallyResult.sum =
        (p.ballots.map (sumVotes p.maxValues.maxVoteOptions)).sum ∧
      (tallyRounds n p).perVOSpentVoiceCredits.sum =
        (tallyRounds n p).totalSpentVoiceCredits) := by
  constructor
  · intro p j hj
    obtain ⟨g1, g2⟩ := foldl_accumBallotTally_getD p.maxValues.maxVoteOptions
      ((p.ballots.drop (p.numBatchesTallied * p.batchSizes.tallyBatchSize)).take
        p.batchSizes.tallyBatchSize) p j hj
    have g3 := foldl_accumBallotTally_total p.maxValues.maxVoteOptions
      ((p.ballots.drop (p.numBatchesTallied * p.batchSizes.tallyBatchSize)).take
        p.batchSizes.tallyBatchSize) p
    unfold tallyVotesStep
    simp only
    exact ⟨g1, g2, g3⟩
  · intro p n hM hP hT h0 hdone
    obtain ⟨hb, hbs, hmv, hnb⟩ := tallyRounds_fields n p
    rw [h0, Nat.zero_add] at hnb
    unfold hasUntalliedBallots at hdone
    rw [hb, hbs, hnb] at hdone
    simp only [decide_eq_false_iff_not, Nat.not_lt] at hdone
    have htake : p.ballots.take (n * p.batchSizes.tallyBatchSize) = p.ballots :=
      List.take_of_length_le hdone
    obtain ⟨ht, hp, htot⟩ := tallyRounds_state n p h0
    rw [htake] at ht hp htot
    have hlen1 : p.tallyResult.length = p.maxValues.maxVoteOptions := by
      rw [hM]
      exact List.length_replicate _ _
    have hlen2 : p.perVOSpentVoiceCredits.length = p.maxValues.maxVoteOptions := by
      rw [hP]
      exact List.length_replicate _ _
    obtain ⟨s1, s2⟩ := foldl_accumBallotTally_sums p.maxValues.maxVoteOptions
      p.ballots p hlen1 hlen2
    have hsum0 : p.tallyResult.sum = 0 := by
      rw [hM]
      simp
    have hsum0' : p.perVOSpentVoiceCredits.sum = 0 := by
      rw [hP]
      simp
    have g3 := foldl_accumBallotTally_total p.maxValues.maxVoteOptions p.ballots p
    constructor
    · rw [ht, s1, hsum0, zero_add]
    · rw [hp, htot, s2, g3, hsum0', hT]

/-- Concrete poll used in the tally witness: two ballots, two vote options,
tally batch size 2. -/
def c6WitnessPoll : Poll :=
  { mkPoll 0 ⟨0, (0, 0)⟩ ⟨1, 1, 1, 1⟩ ⟨2, 1, 5⟩ ⟨3, 2⟩ 0 with
      ballots := [⟨0, [1, 2]⟩, ⟨0, [3, 4]⟩] }

/-- Witness for claim C6: tallying the two-ballot poll in one batch yields
tallyResult summing to 10 and matching spent-credit totals. -/
theorem claim_C6_tally_accumulation_and_sums_witness :
    hasUntalliedBallots (tallyRounds 1 c6WitnessPoll) = false ∧
    (tallyRounds 1 c6WitnessPoll).tallyResult.sum = 10 ∧
    (tallyRounds 1 c6WitnessPoll).perVOSpentVoiceCredits.sum =
      (tallyRounds 1 c6WitnessPoll).totalSpentVoiceCredits := by
  have h := claim_C6_tally_accumulation_and_sums.2 c6WitnessPoll 1
    (by rfl) (by rfl) rfl rfl (by decide)
  refine ⟨by decide, ?_, h.2⟩
  rw [h.1]
  decide

/-- Row or column ballot selection of subsidyCalculation (Poll.ts lines
903-916): ballots[n] when in range, the empty ballot otherwise. -/
def ballotOrEmpty (ballots : List Ballot) (emptyBallot : Ballot) (n : Nat) : Ballot :=
  if n < ballots.length then ballots.getD n emptyBallot else emptyBallot

/-- Embedding of Poll.coefficientCalculation (Poll.ts lines 882-889):
floor(MM * 10^WW / (MM + sum of pairwise vote products)) over unbounded
integers.  All quantities are nonnegative in any reachable state (votes are
field residues), where Lean's Euclidean Int division, mathematical floor and
JavaScript's truncating BigInt division coincide. -/
def coefficientCalculation (maxVoteOptions MM WW : Nat) (rowBallot colBallot : Ballot) :
    Int :=
  let sum := ((List.range maxVoteOptions).map fun pIdx =>
    rowBallot.votes.getD pIdx 0 * colBallot.votes.getD pIdx 0).sum
  ((MM : Int) * (10 : Int) ^ WW) / ((MM : Int) + sum)

/-- Pair condition of subsidyCalculation (Poll.ts line 922): off-diagonal
blocks contribute for every pair, the diagonal block only strictly above the
diagonal. -/
def subsidyPairCondition (rowStartIndex colStartIndex i j : Nat) : Prop :=
  rowStartIndex ≠ colStartIndex ∨ (rowStartIndex = colStartIndex ∧ i < j)

instance (rowStartIndex colStartIndex i j : Nat) :
    Decidable (subsidyPairCondition rowStartIndex colStartIndex i j) := by
  unfold subsidyPairCondition
  infer_instance

/-- Inner body of the subsidy double loop (Poll.ts lines 918-925): when the
pair condition holds, add 2 * k_ij * v_i[p] * v_j[p] to subsidy[p] for every
option p; the subsidy accumulator has length maxVoteOptions throughout. -/
def subsidyPairUpdate (maxVoteOptions MM WW rowStartIndex colStartIndex : Nat)
    (rowBallot colBallot : Ballot) (i j : Nat) (subsidy : List Int) : List Int :=
  let kij := coefficientCalculation maxVoteOptions MM WW rowBallot colBallot
  if subsidyPairCondition rowStartIndex colStartIndex i j then
    (List.range maxVoteOptions).map fun pIdx =>
      subsidy.getD pIdx 0 +
        2 * kij * rowBallot.votes.getD pIdx 0 * colBallot.votes.getD pIdx 0
  else subsidy

/-- Embedding of the accumulation loop of Poll.subsidyCalculation (Poll.ts
lines 897-930). -/
def subsidyCalculation (maxVoteOptions MM WW batchSize : Nat) (ballots : List Ballot)
    (emptyBallot : Ballot) (rowStartIndex colStartIndex : Nat)
    (subsidy : List Int) : List Int :=
  (List.range batchSize).foldl
    (fun sub i =>
      (List.range batchSize).foldl
        (fun sub2 j =>
          subsidyPairUpdate maxVoteOptions MM WW rowStartIndex colStartIndex
            (ballotOrEmpty ballots emptyBallot (rowStartIndex + i))
            (ballotOrEmpty ballots emptyBallot (colStartIndex + j)) i j sub2)
        sub)
    subsidy

theorem foldl_getD_add {α : Type} (L : List α) (step : List Int → α → List Int)
    (δ : α → Int) (pIdx : Nat)
    (hstep : ∀ (sub : List Int) (x : α),
      (step sub x).getD pIdx 0 = sub.getD pIdx 0 + δ x) :
    ∀ sub : List Int, (L.foldl step sub).getD pIdx 0 =
      sub.getD pIdx 0 + (L.map δ).sum := by
  induction L with
  | nil => simp
  | cons a L ih =>
    intro sub
    rw [List.foldl_cons, ih, hstep]
    simp only [List.map_cons, List.sum_cons]
    ring

theorem subsidyPairUpdate_getD (maxVoteOptions MM WW rowStartIndex colStartIndex : Nat)
    (rowBallot colBallot : Ballot) (i j : Nat) (subsidy : List Int) (pIdx : Nat)
    (hp : pIdx < maxVoteOptions) :
    (subsidyPairUpdate maxVoteOptions MM WW rowStartIndex colStartIndex
        rowBallot colBallot i j subsidy).getD pIdx 0 =
      subsidy.getD pIdx 0 +
        (if subsidyPairCondition rowStartIndex colStartIndex i j then
          2 * coefficientCalculation maxVoteOptions MM WW rowBallot colBallot *
            rowBallot.votes.getD pIdx 0 * colBallot.votes.getD pIdx 0
        else 0) := by
  unfold subsidyPairUpdate
  split_ifs with hc
  · rw [List.getD_eq_getElem?_getD, List.getElem?_map, List.getElem?_range hp]
    rfl
  · simp

/-- Claim C9: one subsidyCalculation pass over the blocks starting at
rowStartIndex and colStartIndex increases subsidy[p] by the sum over every
pair (i, j) of the batch square, taken only when rowStartIndex differs from
colStartIndex or i < j, of 2 * k_ij * v_i[p] * v_j[p], with
k_ij = floor(MM * 10^WW / (MM + sum of pairwise vote products)) over integers
and out-of-range ballots replaced by the empty ballot; diagonal-block pairs
with i >= j contribute nothing, and the Poll constructor defaults are MM = 50
and WW = 4. -/
theorem claim_C9_subsidy_per_batch (maxVoteOptions MM WW batchSize : Nat)
    (ballots : List Ballot) (emptyBallot : Ballot)
    (rowStartIndex colStartIndex : Nat) (subsidy : List Int) (pIdx : Nat)
    (hp : pIdx < maxVoteOptions) :
    ((subsidyCalculation maxVoteOptions MM WW batchSize ballots emptyBallot
        rowStartIndex colStartIndex subsidy).getD pIdx 0 =
      subsidy.getD pIdx 0 +
        ((List.range batchSize).map fun i =>
          ((List.range batchSize).map fun j =>
            if subsidyPairCondition rowStartIndex colStartIndex i j then
              2 * coefficientCalculation maxVoteOptions MM WW
                  (ballotOrEmpty ballots emptyBallot (rowStartIndex + i))
                  (ballotOrEmpty ballots emptyBallot (colStartIndex + j)) *
                (ballotOrEmpty ballots emptyBallot (rowStartIndex + i)).votes.getD pIdx 0 *
                (ballotOrEmpty ballots emptyBallot (colStartIndex + j)).votes.getD pIdx 0
            else 0).sum).sum) ∧
    (∀ (e : Int) (k : Keypair) (td : TreeDepths) (bsz : BatchSizes) (mv : MaxValues)
        (pid : Int),
      (mkPoll e k td bsz mv pid).MM = 50 ∧ (mkPoll e k td bsz mv pid).WW = 4) := by
  constructor
  · unfold subsidyCalculation
    refine foldl_getD_add _ _ _ pIdx ?_ subsidy
    intro sub i
    refine foldl_getD_add _ _ _ pIdx ?_ sub
    intro sub2 j
    exact subsidyPairUpdate_getD maxVoteOptions MM WW rowStartIndex colStartIndex
      _ _ i j sub2 pIdx hp
  · intro e k td bsz mv pid
    exact ⟨rfl, rfl⟩

/-- Witness for claim C9: two identical one-vote-per-option ballots on the
diagonal block contribute only the pair (0, 1), with coefficient
floor(500000 / 52) = 9615 and subsidy increment 19230. -/
theorem claim_C9_subsidy_per_batch_witness :
    (0 : Nat) < 2 ∧
    (subsidyCalculation 2 50 4 2 [⟨0, [1, 1]⟩, ⟨0, [1, 1]⟩] (genBlankBallot 2 1)
        0 0 [0, 0]).getD 0 0 = 19230 := by
  have h := claim_C9_subsidy_per_batch 2 50 4 2 [⟨0, [1, 1]⟩, ⟨0, [1, 1]⟩]
    (genBlankBallot 2 1) 0 0 [0, 0] 0 (by decide)
  refine ⟨by decide, ?_⟩
  rw [h.1]
  decide

/-- Equality of public keys.  Modelled from the spec: PubKey.equals in
maci-domainobjs compares the two raw coordinates. -/
def pubKeyEquals (a b : PubKey) : Bool :=
  a.1 == b.1 && a.2 == b.2

/-- Equality of keypairs.  Modelled from the spec: Keypair.equals in
maci-domainobjs compares the private key and the public key. -/
def keypairEquals (a b : Keypair) : Bool :=
  a.privKey == b.privKey && pubKeyEquals a.pubKey b.pubKey

/-- Equality of messages.  Modelled from the spec: Message.equals in
maci-domainobjs compares the type tag and the data words. -/
def messageEquals (a b : Message) : Bool :=
  a.msgType == b.msgType && a.data == b.data

/-- Embedding of Poll.equals (Poll.ts lines 1240-1267): compare the
coordinator keypair, the four tree depths, tally and message batch sizes, the
two maximum values and the message and encryption-key sequences (by length,
then elementwise). -/
def pollEquals (a b : Poll) : Bool :=
  let result :=
    keypairEquals a.coordinatorKeypair b.coordinatorKeypair &&
    (a.treeDepths.intStateTreeDepth == b.treeDepths.intStateTreeDepth) &&
    (a.treeDepths.messageTreeDepth == b.treeDepths.messageTreeDepth) &&
    (a.treeDepths.messageTreeSubDepth == b.treeDepths.messageTreeSubDepth) &&
    (a.treeDepths.voteOptionTreeDepth == b.treeDepths.voteOptionTreeDepth) &&
    (a.batchSizes.tallyBatchSize == b.batchSizes.tallyBatchSize) &&
    (a.batchSizes.messageBatchSize == b.batchSizes.messageBatchSize) &&
    (a.maxValues.maxMessages == b.maxValues.maxMessages) &&
    (a.maxValues.maxVoteOptions == b.maxValues.maxVoteOptions) &&
    (a.messages.length == b.messages.length) &&
    (a.encPubKeys.length == b.encPubKeys.length)
  result &&
    ((List.range a.messages.length).all fun i =>
      messageEquals (a.messages.getD i ⟨0, []⟩) (b.messages.getD i ⟨0, []⟩)) &&
    ((List.range a.encPubKeys.length).all fun i =>
      pubKeyEquals (a.encPubKeys.getD i (0, 0)) (b.encPubKeys.getD i (0, 0)))

/-- JSON image of a Poll (utils/types.ts IJsonPoll).  Modelled from the spec:
every big integer is serialized as a decimal string and every domain object
through its own toJSON, all of which round-trip, so per-element serialization
is the identity here. -/
structure PollJson where
  pollEndTimestamp : Int
  treeDepths : TreeDepths
  batchSizes : BatchSizes
  maxValues : MaxValues
  messages : List Message
  commands : List Cmd
  ballots : List Ballot
  encPubKeys : List PubKey
  currentMessageBatchIndex : Nat
  stateLeaves : List StateLeaf
  results : List Int
  numBatchesProcessed : Nat
  deriving DecidableEq, Repr

/-- Embedding of Poll.toJSON (Poll.ts lines 1273-1288).  The coordinator
keypair is not serialized. -/
def toJSON (p : Poll) : PollJson :=
  { pollEndTimestamp := p.pollEndTimestamp
    treeDepths := p.treeDepths
    batchSizes := p.batchSizes
    maxValues := p.maxValues
    messages := p.messages
    commands := p.commands
    ballots := p.ballots
    encPubKeys := p.encPubKeys
    currentMessageBatchIndex := p.currentMessageBatchIndex
    stateLeaves := p.stateLeaves
    results := p.tallyResult
    numBatchesProcessed := p.numBatchesProcessed }

/-- Snapshot of the MaciState fields read by fromJSON and copyStateFromMaci. -/
structure MaciStateSnapshot where
  stateLeaves : List StateLeaf
  stateTreeLeaves : List Int
  pollsLength : Int
  deriving DecidableEq, Repr

/-- Embedding of Poll.copyStateFromMaci (Poll.ts lines 151-170): copy the
state leaves and state tree from MaciState, rebuild the ballot tree with one
empty-ballot leaf, then pad ballots and the ballot tree with empty ballots up
to the number of state leaves.  The ballot hash is an abstract parameter. -/
def copyStateFromMaci (hashBallot : Ballot → Int) (ms : MaciStateSnapshot)
    (p : Poll) : Poll :=
  let need := ms.stateLeaves.length - p.ballots.length
  { p with
      stateLeaves := ms.stateLeaves
      stateTreeLeaves := ms.stateTreeLeaves
      ballotTreeLeaves :=
        hashBallot p.emptyBallot :: List.replicate need (hashBallot p.emptyBallot)
      ballots := p.ballots ++ List.replicate need p.emptyBallot }

/-- Embedding of Poll.fromJSON (Poll.ts lines 1296-1337): construct a Poll
with the serialized parameters but a freshly generated coordinator keypair
(the code calls new Keypair(), an abstract argument here), restore the
serialized arrays and progress counters, rebuild the message tree from the
message hashes, and copy the state from MaciState. -/
def fromJSON (hashMsg : Message → PubKey → Int) (hashBallot : Ballot → Int)
    (json : PollJson) (freshKeypair : Keypair) (ms : MaciStateSnapshot) : Poll :=
  let poll := mkPoll json.pollEndTimestamp freshKeypair json.treeDepths
    json.batchSizes json.maxValues ms.pollsLength
  let poll :=
    { poll with
        ballots := json.ballots
        encPubKeys := json.encPubKeys
        messages := json.messages
        commands := json.commands
        tallyResult := json.results
        currentMessageBatchIndex := json.currentMessageBatchIndex
        numBatchesProcessed := json.numBatchesProcessed
        messageTreeLeaves := List.zipWith hashMsg json.messages json.encPubKeys }
  copyStateFromMaci hashBallot ms poll

/-- Concrete poll for the round-trip counterexample. -/
def c7CounterPoll : Poll :=
  mkPoll 0 ⟨5, (6, 7)⟩ ⟨1, 1, 1, 1⟩ ⟨1, 1, 1⟩ ⟨3, 3⟩ 0

/-- Concrete MaciState snapshot for the round-trip theorems. -/
def c7Maci : MaciStateSnapshot :=
  { stateLeaves := [blankStateLeaf], stateTreeLeaves := [0], pollsLength := 0 }

/-- Counterexample to claim C7: the round-trip of a concrete poll does not
compare equal via equals, because fromJSON installs a freshly generated
coordinator keypair (here the concrete fresh keypair (8, (9, 10))) while
toJSON never serializes the original one. -/
theorem claim_C7_roundtrip_counterexample :
    pollEquals
      (fromJSON (fun _ _ => 0) (fun _ => 0) (toJSON c7CounterPoll) ⟨8, (9, 10)⟩ c7Maci)
      c7CounterPoll = false := by
  decide

/-- Claim C7 as amended: the JSON round-trip preserves every field that
equals inspects except the coordinator keypair, which fromJSON freshly
generates, so the round-trip compares equal via equals exactly when the fresh
keypair equals the original (for instance after setCoordinatorKeypair); and
the rebuilt message tree has the same leaves whenever the original message
tree's leaves are the hashes of its messages with their encryption keys. -/
theorem claim_C7_roundtrip_amended (hashMsg : Message → PubKey → Int)
    (hashBallot : Ballot → Int) (p : Poll) (k : Keypair) (ms : MaciStateSnapshot) :
    pollEquals (fromJSON hashMsg hashBallot (toJSON p) k ms) p =
      keypairEquals k p.coordinatorKeypair ∧
    (p.messageTreeLeaves = List.zipWith hashMsg p.messages p.encPubKeys →
      (fromJSON hashMsg hashBallot (toJSON p) k ms).messageTreeLeaves =
        p.messageTreeLeaves) := by
  constructor
  · unfold pollEquals fromJSON copyStateFromMaci toJSON mkPoll
    simp [messageEquals, pubKeyEquals, List.all_eq_true]
    have hall : ∀ l : List Nat, (l.all fun _ => true) = true := by
      intro l
      simp
    rw [hall, hall, Bool.and_true, Bool.and_true]
  · intro h
    unfold fromJSON copyStateFromMaci toJSON mkPoll
    simp only
    exact h.symm

/-- Concrete poll with one ingested message for the round-trip witness. -/
def c7WitnessPoll : Poll :=
  { mkPoll 0 ⟨5, (6, 7)⟩ ⟨1, 1, 1, 1⟩ ⟨1, 1, 1⟩ ⟨3, 3⟩ 0 with
      messages := [⟨1, [2]⟩]
      encPubKeys := [(3, 4)]
      messageTreeLeaves := [9] }

/-- Witness for the amended claim C7 at a concrete poll whose message-tree
leaf is the hash of its single message. -/
theorem claim_C7_roundtrip_amended_witness :
    pollEquals
        (fromJSON (fun _ _ => 9) (fun _ => 0) (toJSON c7WitnessPoll) ⟨8, (9, 10)⟩ c7Maci)
        c7WitnessPoll =
      keypairEquals ⟨8, (9, 10)⟩ c7WitnessPoll.coordinatorKeypair ∧
    (fromJSON (fun _ _ => 9) (fun _ => 0) (toJSON c7WitnessPoll) ⟨8, (9, 10)⟩
        c7Maci).messageTreeLeaves = c7WitnessPoll.messageTreeLeaves := by
  have h := claim_C7_roundtrip_amended (fun _ _ => 9) (fun _ => 0) c7WitnessPoll
    ⟨8, (9, 10)⟩ c7Maci
  exact ⟨h.1, h.2 (by decide)⟩

end MaciCore
